import Mathlib

/-!
Shallow embedding of `src/Trackable.ts`.

The repository implements an instrumented value pipeline: a `Trackable<Value>`
class holding a current value and an append-only list of analytics events.
We embed the class over a small JavaScript-like value domain:

* primitives (`number`, `string`, `boolean`, `null`, `undefined`),
* function values (not structured-cloneable), and
* references into a mutable heap of flat objects whose fields are
  primitives or function values.

In-place mutation of composite payloads — which the TypeScript code is
explicitly written to tolerate — is modelled by threading the heap through
every transformation function. `structuredClone` is modelled as a deep copy
into a pure, heap-independent `Snap` tree; it fails (JS `DataCloneError`)
on function values and on objects holding function-valued fields.
Operations that can throw return `Except JsError`.
-/

namespace TrackableSpec

/-- A JavaScript primitive value. -/
inductive JsPrim where
  | num (n : Int)
  | str (s : String)
  | bool (b : Bool)
  | null
  | undef
deriving DecidableEq, Repr

/-- A live JavaScript value: a primitive, a function value, or a reference
to a heap-allocated object. -/
inductive JsVal where
  | prim (p : JsPrim)
  | func (id : Nat)
  | ref (r : Nat)
deriving DecidableEq, Repr

/-- A field stored inside a heap object: a primitive or a function value. -/
inductive Fld where
  | prim (p : JsPrim)
  | func (id : Nat)
deriving DecidableEq, Repr

/-- The mutable object store: objects addressed by `Nat`, each a list of
named fields. -/
abbrev Heap := List (Nat × List (String × Fld))

/-- Look an object up in the heap by its address. -/
def heapLookup (h : Heap) (r : Nat) : Option (List (String × Fld)) :=
  match h with
  | [] => none
  | (a, fs) :: rest => if a = r then some fs else heapLookup rest r

/-- `typeof` on the embedded value domain (`typeof null` is `"object"`,
as in JavaScript). -/
def typeofStr : JsVal → String
  | .prim (.num _) => "number"
  | .prim (.str _) => "string"
  | .prim (.bool _) => "boolean"
  | .prim .null => "object"
  | .prim .undef => "undefined"
  | .func _ => "function"
  | .ref _ => "object"

/-- The test at line 125 of `Trackable.ts`:
`typeof v === 'object' || typeof v === 'function' || typeof v === 'symbol'`. -/
def isObjFuncSym (v : JsVal) : Bool :=
  typeofStr v == "object" || typeofStr v == "function" || typeofStr v == "symbol"

/-- The result of `structuredClone`: a pure value tree, independent of the
heap, so no later heap mutation can reach it. -/
inductive Snap where
  | prim (p : JsPrim)
  | obj (fields : List (String × JsPrim))
deriving DecidableEq, Repr

/-- Clone the fields of one heap object; fails on function-valued fields. -/
def cloneFields : List (String × Fld) → Option (List (String × JsPrim))
  | [] => some []
  | (k, .prim p) :: rest => (cloneFields rest).map (fun tl => (k, p) :: tl)
  | (_, .func _) :: _ => none

/-- `structuredClone`: deep-copies a value out of the heap into an
independent snapshot. Returns `none` (the JS `DataCloneError`) on function
values, on objects holding function-valued fields, and on dangling
references. -/
def structuredClone (h : Heap) (v : JsVal) : Option Snap :=
  match v with
  | .prim p => some (.prim p)
  | .func _ => none
  | .ref r =>
    match heapLookup h r with
    | none => none
    | some fields => (cloneFields fields).map Snap.obj

/-- The `metadata` field of an `AnalyticsEvent`
(`{ caller?; input?; currentValue }` in `Trackable.ts`). -/
structure Metadata where
  caller : Option String
  input : Option Snap
  currentValue : Snap
deriving DecidableEq, Repr

/-- One analytics event: its `metadata` plus the free-form top-level fields
(`[key: string]: unknown`) merged in at construction time. -/
structure AnalyticsEvent where
  metadata : Metadata
  extra : List (String × JsPrim)
deriving DecidableEq, Repr

/-- The `Trackable<Value>` instance: a current value and the accumulated
analytics events. -/
structure Trackable where
  value : JsVal
  analyticsEvents : List AnalyticsEvent
deriving DecidableEq, Repr

/-- `getValue`. -/
def getValue (t : Trackable) : JsVal := t.value

/-- `getAnalyticsEvents`. -/
def getAnalyticsEvents (t : Trackable) : List AnalyticsEvent := t.analyticsEvents

/-- An error escaping a wrapper operation: the structured-clone failure or
an exception thrown by a caller-supplied transformation function. -/
inductive JsError where
  | dataCloneError
  | thrown (tag : Nat)
deriving DecidableEq, Repr

/-- A transformation function passed to `map`: its `.name` (the empty
string for an anonymous function) and a body that may read and mutate the
heap, return a value, or throw. -/
structure TransformFn where
  name : String
  body : JsVal → Heap → Except JsError (JsVal × Heap)

/-- A transformation function passed to `flatMap`: like `TransformFn`, but
the body returns a `Trackable`. -/
structure FlatFn where
  name : String
  body : JsVal → Heap → Except JsError (Trackable × Heap)

/-- `transformationFunction.name || 'anonymous'`: the empty string is
falsy, so it is replaced by the sentinel. -/
def callerName (name : String) : String :=
  if name = "" then "anonymous" else name

/-- Extra fields of `events[0]`: JS `{...events[0], ...}` spreads
`undefined` to nothing when the list is empty. -/
def firstExtra : List AnalyticsEvent → List (String × JsPrim)
  | [] => []
  | e :: _ => e.extra

/-- `Trackable.of(value, analyticsEvents?)` (lines 229–247): builds the
one-element event log whose metadata holds only the `structuredClone`
snapshot of `value`; the optional payload's fields are spread at the top
level (a payload key named `"metadata"` is overwritten by the metadata
object). Throws `DataCloneError` when `value` is not cloneable. -/
def of (value : JsVal) (payload : List (String × JsPrim)) (h : Heap) :
    Except JsError Trackable :=
  match structuredClone h value with
  | none => .error .dataCloneError
  | some snap =>
    .ok { value := value,
          analyticsEvents :=
            [{ metadata := { caller := none, input := none, currentValue := snap },
               extra := payload.filter (fun kv => kv.1 ≠ "metadata") }] }

/-- `map(transformationFunction)` (lines 110–146). The `input` snapshot is
cloned before the function runs; the function then runs (possibly mutating
the heap); the new wrapper's value is the function's result only when the
original value is not object/function/symbol-typed, otherwise the original
value (the live reference) is kept; the record's `currentValue` is a clone
of `this.getValue()` — the original value field, read after the call —
not of the function's result. -/
def map (t : Trackable) (f : TransformFn) (h : Heap) :
    Except JsError (Trackable × Heap) :=
  match structuredClone h t.value with
  | none => .error .dataCloneError
  | some inputSnap =>
    match f.body t.value h with
    | .error e => .error e
    | .ok (result, h') =>
      match structuredClone h' t.value with
      | none => .error .dataCloneError
      | some currSnap =>
        .ok ({ value := if isObjFuncSym t.value then t.value else result,
               analyticsEvents := t.analyticsEvents ++
                 [{ metadata := { caller := some (callerName f.name),
                                  input := some inputSnap,
                                  currentValue := currSnap },
                    extra := [] }] },
             h')

/-- `flatMap(transformationFunction)` (lines 156–194). The `input`
snapshot is cloned before the call; the function returns an inner wrapper;
the merged log is the outer log plus ONE record spreading the inner log's
FIRST event (`newTrackableInstance.getAnalyticsEvents()[0]`) with its
metadata overwritten by the call site's caller/input and a clone of the
inner wrapper's value. -/
def flatMap (t : Trackable) (f : FlatFn) (h : Heap) :
    Except JsError (Trackable × Heap) :=
  match structuredClone h t.value with
  | none => .error .dataCloneError
  | some inputSnap =>
    match f.body t.value h with
    | .error e => .error e
    | .ok (inner, h') =>
      match structuredClone h' inner.value with
      | none => .error .dataCloneError
      | some currSnap =>
        .ok ({ value := inner.value,
               analyticsEvents := t.analyticsEvents ++
                 [{ metadata := { caller := some (callerName f.name),
                                  input := some inputSnap,
                                  currentValue := currSnap },
                    extra := firstExtra inner.analyticsEvents }] },
             h')

/-- `run(trackingFunction)` (lines 200–209): hands the full event list to
the sink once and returns the underlying value. The sink's side effect is
modelled as a state transition on an arbitrary state type `σ`. -/
def run {σ : Type} (t : Trackable)
    (trackingFunction : List AnalyticsEvent → σ → σ) (s : σ) : σ × JsVal :=
  (trackingFunction (getAnalyticsEvents t) s, getValue t)

/-- `runAsync(trackingFunctionAsync)` (lines 215–222): awaits the sink's
single asynchronous completion, then returns the underlying value; with
the await modelled as sequencing, its state-passing semantics coincides
with `run`. -/
def runAsync {σ : Type} (t : Trackable)
    (trackingFunctionAsync : List AnalyticsEvent → σ → σ) (s : σ) : σ × JsVal :=
  (trackingFunctionAsync (getAnalyticsEvents t) s, getValue t)

/-- One composition call in a chain: a `map` stage or a `flatMap` stage. -/
inductive Step where
  | mapStep (f : TransformFn)
  | flatMapStep (f : FlatFn)

/-- The caller name a step stamps on its record. -/
def stepName : Step → String
  | .mapStep f => callerName f.name
  | .flatMapStep f => callerName f.name

/-- Apply one composition call. -/
def applyStep (t : Trackable) (st : Step) (h : Heap) :
    Except JsError (Trackable × Heap) :=
  match st with
  | .mapStep f => map t f h
  | .flatMapStep f => flatMap t f h

/-- Run a chain of composition calls left to right, threading the heap;
an exception aborts the chain. -/
def runChain (t : Trackable) (steps : List Step) (h : Heap) :
    Except JsError (Trackable × Heap) :=
  match steps with
  | [] => .ok (t, h)
  | st :: rest =>
    match applyStep t st h with
    | .error e => .error e
    | .ok (t', h') => runChain t' rest h'

/-! ## Inversion lemmas for the wrapper operations -/

/-- Successful `of` pins the returned wrapper completely. -/
theorem of_ok {v : JsVal} {p : List (String × JsPrim)} {h : Heap} {t : Trackable}
    (ho : of v p h = .ok t) :
    ∃ snap, structuredClone h v = some snap ∧
      t = { value := v,
            analyticsEvents :=
              [{ metadata := { caller := none, input := none, currentValue := snap },
                 extra := p.filter (fun kv => kv.1 ≠ "metadata") }] } := by
  unfold of at ho
  split at ho
  · simp at ho
  · rename_i snap hsnap
    exact ⟨snap, hsnap, by injection ho with ho; exact ho.symm⟩

/-- Successful `map` pins the returned wrapper and heap completely. -/
theorem map_ok {t : Trackable} {f : TransformFn} {h : Heap} {t' : Trackable}
    {h' : Heap} (hm : map t f h = .ok (t', h')) :
    ∃ inS r curS,
      structuredClone h t.value = some inS ∧
      f.body t.value h = .ok (r, h') ∧
      structuredClone h' t.value = some curS ∧
      t' = { value := if isObjFuncSym t.value then t.value else r,
             analyticsEvents := t.analyticsEvents ++
               [{ metadata := { caller := some (callerName f.name),
                                input := some inS,
                                currentValue := curS },
                  extra := [] }] } := by
  unfold map at hm
  split at hm
  · simp at hm
  · rename_i inS hin
    split at hm
    · simp at hm
    · rename_i r h2 hbody
      split at hm
      · simp at hm
      · rename_i curS hcur
        simp only [Except.ok.injEq, Prod.mk.injEq] at hm
        obtain ⟨ht, hh⟩ := hm
        subst hh
        exact ⟨inS, r, curS, hin, hbody, hcur, ht.symm⟩

/-- Successful `flatMap` pins the returned wrapper and heap completely. -/
theorem flatMap_ok {t : Trackable} {f : FlatFn} {h : Heap} {t' : Trackable}
    {h' : Heap} (hm : flatMap t f h = .ok (t', h')) :
    ∃ inS inner curS,
      structuredClone h t.value = some inS ∧
      f.body t.value h = .ok (inner, h') ∧
      structuredClone h' inner.value = some curS ∧
      t' = { value := inner.value,
             analyticsEvents := t.analyticsEvents ++
               [{ metadata := { caller := some (callerName f.name),
                                input := some inS,
                                currentValue := curS },
                  extra := firstExtra inner.analyticsEvents }] } := by
  unfold flatMap at hm
  split at hm
  · simp at hm
  · rename_i inS hin
    split at hm
    · simp at hm
    · rename_i inner h2 hbody
      split at hm
      · simp at hm
      · rename_i curS hcur
        simp only [Except.ok.injEq, Prod.mk.injEq] at hm
        obtain ⟨ht, hh⟩ := hm
        subst hh
        exact ⟨inS, inner, curS, hin, hbody, hcur, ht.symm⟩

/-- Every successful composition call appends exactly one record, stamped
with the step's caller name and an `input` snapshot. -/
theorem applyStep_ok {t : Trackable} {st : Step} {h : Heap} {t' : Trackable}
    {h' : Heap} (hs : applyStep t st h = .ok (t', h')) :
    ∃ rec, t'.analyticsEvents = t.analyticsEvents ++ [rec] ∧
      rec.metadata.caller = some (stepName st) ∧
      rec.metadata.input.isSome = true := by
  cases st with
  | mapStep f =>
    obtain ⟨inS, r, curS, _, _, _, ht⟩ := map_ok hs
    subst ht
    exact ⟨_, rfl, rfl, rfl⟩
  | flatMapStep f =>
    obtain ⟨inS, inner, curS, _, _, _, ht⟩ := flatMap_ok hs
    subst ht
    exact ⟨_, rfl, rfl, rfl⟩

/-- A successful chain appends one record per step, in order: the appended
records' caller fields are exactly the step names, and every appended
record carries both a caller and an `input` snapshot. -/
theorem runChain_ok {steps : List Step} : ∀ {t : Trackable} {h : Heap}
    {t' : Trackable} {h' : Heap}, runChain t steps h = .ok (t', h') →
    ∃ l, t'.analyticsEvents = t.analyticsEvents ++ l ∧
      l.map (fun e => e.metadata.caller) = steps.map (fun s => some (stepName s)) ∧
      ∀ e ∈ l, e.metadata.caller.isSome = true ∧ e.metadata.input.isSome = true := by
  induction steps with
  | nil =>
    intro t h t' h' hc
    unfold runChain at hc
    simp only [Except.ok.injEq, Prod.mk.injEq] at hc
    obtain ⟨ht, _⟩ := hc
    exact ⟨[], by simp [← ht], by simp, by simp⟩
  | cons st rest ih =>
    intro t h t' h' hc
    unfold runChain at hc
    split at hc
    · simp at hc
    · rename_i t1 h1 hstep
      obtain ⟨rec, hev, hcall, hinp⟩ := applyStep_ok hstep
      obtain ⟨l, hev', hmap, hall⟩ := ih hc
      refine ⟨rec :: l, ?_, ?_, ?_⟩
      · rw [hev', hev, List.append_assoc, List.singleton_append]
      · simp only [List.map_cons, hmap, hcall, List.map_map]
      · intro e he
        rcases List.mem_cons.mp he with he | he
        · exact he ▸ ⟨by simp [hcall], hinp⟩
        · exact hall e he

/-! ## Concrete fixtures

Small concrete wrappers, heaps and transformation functions used to
instantiate the claim theorems and to exhibit counterexamples. They mirror
the repository's own test scenarios (`index.test.ts`). -/

/-- A wrapper holding the number 5, as built by `Trackable.of(5)`. -/
def numFive : Trackable :=
  { value := .prim (.num 5),
    analyticsEvents :=
      [{ metadata := { caller := none, input := none, currentValue := .prim (.num 5) },
         extra := [] }] }

/-- The `addTwo` stage of the test suite: `(x) => x + 2`. -/
def addTwoFn : TransformFn :=
  { name := "addTwo",
    body := fun v h =>
      match v with
      | .prim (.num n) => .ok (.prim (.num (n + 2)), h)
      | _ => .error (.thrown 1) }

/-- The wrapper produced by `numFive.map(addTwoFn)` under the empty heap. -/
def numFiveMapped : Trackable :=
  { value := .prim (.num 7),
    analyticsEvents :=
      [{ metadata := { caller := none, input := none, currentValue := .prim (.num 5) },
         extra := [] },
       { metadata := { caller := some "addTwo", input := some (.prim (.num 5)),
                       currentValue := .prim (.num 5) },
         extra := [] }] }

/-- A one-object heap holding `{ age: 27 }`. -/
def personHeap : Heap := [(0, [("age", Fld.prim (JsPrim.num 27))])]

/-- A wrapper holding a reference to the `{ age: 27 }` object. -/
def objPerson : Trackable :=
  { value := .ref 0,
    analyticsEvents :=
      [{ metadata := { caller := none, input := none,
                       currentValue := .obj [("age", .num 27)] },
         extra := [] }] }

/-- A transformation function that ignores its argument and returns 42. -/
def toFortyTwo : TransformFn :=
  { name := "toFortyTwo", body := fun _ h => .ok (.prim (.num 42), h) }

/-- A wrapper with a one-record log, holding the number 0. -/
def outerOne : Trackable :=
  { value := .prim (.num 0),
    analyticsEvents :=
      [{ metadata := { caller := none, input := none, currentValue := .prim (.num 0) },
         extra := [] }] }

/-- A wrapper whose log already has TWO records (as produced by an `of`
followed by a `map` inside the transformation function). -/
def innerTwo : Trackable :=
  { value := .prim (.num 1),
    analyticsEvents :=
      [{ metadata := { caller := none, input := none, currentValue := .prim (.num 0) },
         extra := [("randomNumber", .num 3)] },
       { metadata := { caller := some "g", input := some (.prim (.num 0)),
                       currentValue := .prim (.num 0) },
         extra := [] }] }

/-- A `flatMap` stage returning the two-record inner wrapper. -/
def toInnerTwo : FlatFn :=
  { name := "toInnerTwo", body := fun _ h => .ok (innerTwo, h) }

/-- The wrapper produced by `outerOne.flatMap(toInnerTwo)` under the empty
heap: the outer record plus ONE merged record. -/
def outerFlatMapped : Trackable :=
  { value := .prim (.num 1),
    analyticsEvents :=
      [{ metadata := { caller := none, input := none, currentValue := .prim (.num 0) },
         extra := [] },
       { metadata := { caller := some "toInnerTwo", input := some (.prim (.num 0)),
                       currentValue := .prim (.num 1) },
         extra := [("randomNumber", .num 3)] }] }

/-! ## The claims -/

/-- C1: the claim states that `map` always sets the new wrapper's current
value to the transformation function's return value, for payloads of every
type. Counterexample: on an object-valued payload (`{ age: 27 }`) a
transformation returning the number 42 succeeds, yet the new wrapper's
current value is the original object reference, not 42 — line 125 of
`Trackable.ts` discards the return value whenever
`typeof` the original value is object/function/symbol. -/
theorem map_discards_result_on_object_payload :
    toFortyTwo.body (getValue objPerson) personHeap
        = .ok (.prim (.num 42), personHeap)
    ∧ (map objPerson toFortyTwo personHeap).toOption.map (fun p => getValue p.1)
        = some (.ref 0)
    ∧ JsVal.ref 0 ≠ JsVal.prim (.num 42) :=
  ⟨rfl, rfl, by decide⟩

/-- C1 (amended): `map` sets the new wrapper's current value to the
transformation function's return value exactly when the predecessor's
current value is not object-, function-, or symbol-typed (`null` counts as
object-typed); for object-like payloads the new wrapper keeps the
predecessor's current value (the live reference) and the return value is
discarded. -/
theorem map_value_adoption (t : Trackable) (f : TransformFn) (h h2 : Heap)
    (r : JsVal) (t' : Trackable) (h' : Heap)
    (hf : f.body (getValue t) h = .ok (r, h2))
    (hm : map t f h = .ok (t', h')) :
    getValue t' = if isObjFuncSym (getValue t) then getValue t else r := by
  obtain ⟨inS, r', curS, _, hbody, _, ht⟩ := map_ok hm
  rw [getValue] at hf
  rw [hf] at hbody
  simp only [Except.ok.injEq, Prod.mk.injEq] at hbody
  subst ht
  simp [getValue, hbody.1]

/-- C1 (amended) witness: on the primitive payload 5 the stage `addTwo`
does replace the value with its result 7. -/
theorem map_value_adoption_witness :
    getValue numFiveMapped
      = if isObjFuncSym (getValue numFive) then getValue numFive
        else JsVal.prim (.num 7) :=
  map_value_adoption numFive addTwoFn [] [] (.prim (.num 7)) numFiveMapped [] rfl rfl

/-- C2: the claim states that `flatMap` flattens the FULL inner event log
(result length m + n). Counterexample: with an outer log of length m = 1
and an inner wrapper whose log has n = 2 records, the wrapper returned by
`flatMap` has a log of length 2, not 1 + 2 = 3 — line 179 of
`Trackable.ts` merges only `getAnalyticsEvents()[0]` of the inner wrapper. -/
theorem flatMap_merges_only_first_inner_record :
    toInnerTwo.body (getValue outerOne) [] = .ok (innerTwo, [])
    ∧ (getAnalyticsEvents outerOne).length = 1
    ∧ (getAnalyticsEvents innerTwo).length = 2
    ∧ (flatMap outerOne toInnerTwo []).toOption.map
        (fun p => (getAnalyticsEvents p.1).length) = some 2
    ∧ (2 : Nat) ≠ 1 + 2 :=
  ⟨rfl, rfl, rfl, by decide, by decide⟩

/-- C2 (amended): for an outer log of length m, the wrapper returned by
`flatMap` has an event log of length m + 1: the outer log plus one merged
record that spreads the inner wrapper's FIRST record (preserving its
free-form fields) and overwrites its metadata with the flatMap call site's
caller, the pre-call input snapshot, and a deep copy of the inner
wrapper's final value. -/
theorem flatMap_log_shape (t : Trackable) (f : FlatFn) (h : Heap)
    (t' : Trackable) (h' : Heap) (hm : flatMap t f h = .ok (t', h')) :
    (getAnalyticsEvents t').length = (getAnalyticsEvents t).length + 1
    ∧ ∃ inner inS curS,
        f.body (getValue t) h = .ok (inner, h') ∧
        structuredClone h (getValue t) = some inS ∧
        structuredClone h' (getValue inner) = some curS ∧
        getAnalyticsEvents t' = getAnalyticsEvents t ++
          [{ metadata := { caller := some (callerName f.name),
                           input := some inS, currentValue := curS },
             extra := firstExtra (getAnalyticsEvents inner) }] := by
  obtain ⟨inS, inner, curS, hin, hbody, hcur, ht⟩ := flatMap_ok hm
  subst ht
  refine ⟨by simp [getAnalyticsEvents], inner, inS, curS, hbody, hin, hcur, rfl⟩

/-- C2 (amended) witness: `outerOne.flatMap(toInnerTwo)` yields a log of
length 1 + 1 = 2, whose merged record keeps the inner first record's
`randomNumber` field. -/
theorem flatMap_log_shape_witness :
    (getAnalyticsEvents outerFlatMapped).length = (getAnalyticsEvents outerOne).length + 1
    ∧ ∃ inner inS curS,
        toInnerTwo.body (getValue outerOne) [] = .ok (inner, []) ∧
        structuredClone [] (getValue outerOne) = some inS ∧
        structuredClone [] (getValue inner) = some curS ∧
        getAnalyticsEvents outerFlatMapped = getAnalyticsEvents outerOne ++
          [{ metadata := { caller := some (callerName toInnerTwo.name),
                           input := some inS, currentValue := curS },
             extra := firstExtra (getAnalyticsEvents inner) }] :=
  flatMap_log_shape outerOne toInnerTwo [] outerFlatMapped [] rfl

/-- C3: the claim states that the record appended by `map` stores as its
current-value snapshot a deep copy of the transformation function's RETURN
value. Counterexample: `of(5).map(addTwo)` appends a record whose
`currentValue` is 5 (a clone of `this.getValue()`, line 134 of
`Trackable.ts`) even though the function returned 7. -/
theorem map_record_snapshots_old_value :
    addTwoFn.body (getValue numFive) [] = .ok (.prim (.num 7), [])
    ∧ (map numFive addTwoFn []).toOption.map
        (fun p => (getAnalyticsEvents p.1).getLast?.map
          (fun e => e.metadata.currentValue))
        = some (some (.prim (.num 5)))
    ∧ structuredClone [] (JsVal.prim (.num 7)) = some (.prim (.num 7))
    ∧ Snap.prim (.num 5) ≠ Snap.prim (.num 7) :=
  ⟨rfl, by decide, rfl, by decide⟩

/-- C3 (amended): the record appended by `map` has caller equal to the
function's declared name (or "anonymous"), input equal to a deep copy of
the pre-transform current value, and current-value snapshot equal to a
deep copy of the predecessor wrapper's own value field read AFTER the
function runs — reflecting in-place mutation, but not the function's
return value. -/
theorem map_record_shape (t : Trackable) (f : TransformFn) (h : Heap)
    (t' : Trackable) (h' : Heap) (hm : map t f h = .ok (t', h')) :
    ∃ inS curS,
      structuredClone h (getValue t) = some inS ∧
      structuredClone h' (getValue t) = some curS ∧
      getAnalyticsEvents t' = getAnalyticsEvents t ++
        [{ metadata := { caller := some (callerName f.name),
                         input := some inS, currentValue := curS },
           extra := [] }] := by
  obtain ⟨inS, r, curS, hin, _, hcur, ht⟩ := map_ok hm
  subst ht
  exact ⟨inS, curS, hin, hcur, rfl⟩

/-- C3 (amended) witness: for `numFive.map(addTwo)` both snapshots are
deep copies of the number 5. -/
theorem map_record_shape_witness :
    ∃ inS curS,
      structuredClone [] (getValue numFive) = some inS ∧
      structuredClone [] (getValue numFive) = some curS ∧
      getAnalyticsEvents numFiveMapped = getAnalyticsEvents numFive ++
        [{ metadata := { caller := some (callerName addTwoFn.name),
                         input := some inS, currentValue := curS },
           extra := [] }] :=
  map_record_shape numFive addTwoFn [] numFiveMapped [] rfl

/-! ## Fixtures mirroring the mutable-payload test of `index.test.ts` -/

/-- Overwrite one named field of an object's field list. -/
def setField (fs : List (String × Fld)) (k : String) (v : Fld) : List (String × Fld) :=
  fs.map (fun kv => if kv.1 = k then (k, v) else kv)

/-- In-place mutation of one field of the object at address `r`. -/
def heapSet (h : Heap) (r : Nat) (k : String) (v : Fld) : Heap :=
  h.map (fun af => if af.1 = r then (af.1, setField af.2 k v) else af)

/-- Read the numeric `age` field of the object at address `r`. -/
def getAge (h : Heap) (r : Nat) : Int :=
  match heapLookup h r with
  | some fs =>
    match fs.lookup "age" with
    | some (Fld.prim (JsPrim.num n)) => n
    | _ => 0
  | none => 0

/-- The heap after `createPersonWithEvent('sam', 27)`. -/
def samHeap : Heap :=
  [(0, [("name", Fld.prim (JsPrim.str "sam")), ("age", Fld.prim (JsPrim.num 27))])]

/-- The wrapper built by `Trackable.of({name: 'sam', age: 27}, {event: 'creating person'})`. -/
def samT : Trackable :=
  { value := .ref 0,
    analyticsEvents :=
      [{ metadata := { caller := none, input := none,
                       currentValue := .obj [("name", .str "sam"), ("age", .num 27)] },
         extra := [("event", .str "creating person")] }] }

/-- The test's `celebrateBDay`: increments `age` in place, then returns a
fresh `of` of the same object with a custom event payload. -/
def celebrateBDay : FlatFn :=
  { name := "celebrateBDay",
    body := fun v h =>
      match v with
      | JsVal.ref r =>
        let h' := heapSet h r "age" (Fld.prim (JsPrim.num (getAge h r + 1)))
        match of v [("event", .str "celebrate bday"), ("ageIncrement", .num 1)] h' with
        | .ok t => .ok (t, h')
        | .error e => .error e
      | _ => .error (.thrown 99) }

/-- The test's `changeName`: renames in place and returns `undefined`. -/
def changeName : TransformFn :=
  { name := "changeName",
    body := fun v h =>
      match v with
      | JsVal.ref r =>
        .ok (.prim .undef, heapSet h r "name" (Fld.prim (JsPrim.str "some other name")))
      | _ => .error (.thrown 98) }

/-- The test's chain `sam.flatMap(celebrateBDay).map(changeName).flatMap(celebrateBDay)`. -/
def samChain : List Step :=
  [.flatMapStep celebrateBDay, .mapStep changeName, .flatMapStep celebrateBDay]

/-- The heap after the full `samChain` has run. -/
def samHeapFinal : Heap :=
  [(0, [("name", Fld.prim (JsPrim.str "some other name")),
        ("age", Fld.prim (JsPrim.num 29))])]

/-- The wrapper produced by running `samChain` on `samT`: each record's
snapshots show the object's state at that point of the chain, exactly as
asserted by `index.test.ts`. -/
def samChained : Trackable :=
  { value := .ref 0,
    analyticsEvents :=
      [{ metadata := { caller := none, input := none,
                       currentValue := .obj [("name", .str "sam"), ("age", .num 27)] },
         extra := [("event", .str "creating person")] },
       { metadata := { caller := some "celebrateBDay",
                       input := some (.obj [("name", .str "sam"), ("age", .num 27)]),
                       currentValue := .obj [("name", .str "sam"), ("age", .num 28)] },
         extra := [("event", .str "celebrate bday"), ("ageIncrement", .num 1)] },
       { metadata := { caller := some "changeName",
                       input := some (.obj [("name", .str "sam"), ("age", .num 28)]),
                       currentValue := .obj [("name", .str "some other name"), ("age", .num 28)] },
         extra := [] },
       { metadata := { caller := some "celebrateBDay",
                       input := some (.obj [("name", .str "some other name"), ("age", .num 28)]),
                       currentValue := .obj [("name", .str "some other name"), ("age", .num 29)] },
         extra := [("event", .str "celebrate bday"), ("ageIncrement", .num 1)] }] }

/-- The `flatMap` stage `addRandom`: returns `of(value, {randomNumber: 3})`. -/
def addRandom : FlatFn :=
  { name := "addRandom",
    body := fun v h =>
      match of v [("randomNumber", .num 3)] h with
      | .ok t => .ok (t, h)
      | .error e => .error e }

/-- A two-step chain on the number 5: a `map` then a `flatMap`. -/
def chainTwo : List Step := [.mapStep addTwoFn, .flatMapStep addRandom]

/-- The wrapper produced by running `chainTwo` on `numFive`. -/
def numFiveChained : Trackable :=
  { value := .prim (.num 7),
    analyticsEvents :=
      [{ metadata := { caller := none, input := none, currentValue := .prim (.num 5) },
         extra := [] },
       { metadata := { caller := some "addTwo", input := some (.prim (.num 5)),
                       currentValue := .prim (.num 5) },
         extra := [] },
       { metadata := { caller := some "addRandom", input := some (.prim (.num 7)),
                       currentValue := .prim (.num 7) },
         extra := [("randomNumber", .num 3)] }] }

/-- Booleanized map of a list all of whose entries satisfy `g` is a
`replicate` of `true`. -/
theorem map_eq_replicate_true {α : Type} (g : α → Bool) :
    ∀ l : List α, (∀ e ∈ l, g e = true) → l.map g = List.replicate l.length true := by
  intro l
  induction l with
  | nil => intro _; rfl
  | cons a tl ih =>
    intro hall
    simp only [List.map_cons, List.length_cons, List.replicate_succ]
    rw [hall a (by simp), ih (fun e he => hall e (by simp [he]))]

/-- C4: mutating the live current value in place after a stage completes —
including mutation performed by a later stage's transformation function,
which in this embedding may rewrite the heap arbitrarily — never changes
any previously recorded event: every record of the predecessor's log
reappears verbatim in the successor's log. Each record stores `Snap`
trees, which contain no heap references, so no heap mutation can reach a
recorded snapshot. -/
theorem chain_preserves_prior_records (t : Trackable) (steps : List Step)
    (h : Heap) (t' : Trackable) (h' : Heap)
    (hc : runChain t steps h = .ok (t', h')) :
    ∃ appended, getAnalyticsEvents t' = getAnalyticsEvents t ++ appended := by
  obtain ⟨l, hev, _, _⟩ := runChain_ok hc
  exact ⟨l, hev⟩

/-- C4 witness: the repository's mutable-payload test chain — the object
is mutated in place up to `{name: 'some other name', age: 29}`, yet the
construction record (snapshot `{name: 'sam', age: 27}`) survives
unchanged. -/
theorem chain_preserves_prior_records_witness :
    ∃ appended, getAnalyticsEvents samChained = getAnalyticsEvents samT ++ appended :=
  chain_preserves_prior_records samT samChain samHeap samChained samHeapFinal rfl

/-- C5: a chain of N composition calls starting from `of` yields an event
log with exactly N + 1 records — one construction record plus one per
composition call (`map` and `flatMap` each append exactly one record). -/
theorem chain_log_length (v : JsVal) (p : List (String × JsPrim)) (h : Heap)
    (t0 : Trackable) (steps : List Step) (t' : Trackable) (h' : Heap)
    (h0 : of v p h = .ok t0) (hc : runChain t0 steps h = .ok (t', h')) :
    (getAnalyticsEvents t').length = steps.length + 1 := by
  obtain ⟨snap, _, ht0⟩ := of_ok h0
  obtain ⟨l, hev, hmap, _⟩ := runChain_ok hc
  subst ht0
  have hlen : l.length = steps.length := by
    simpa using congrArg List.length hmap
  simp [getAnalyticsEvents, hev, hlen, Nat.add_comm]

/-- C5 witness: the two-step chain on `of(5)` drains a 3-record log. -/
theorem chain_log_length_witness :
    (getAnalyticsEvents numFiveChained).length = chainTwo.length + 1 :=
  chain_log_length (.prim (.num 5)) [] [] numFive chainTwo numFiveChained [] rfl rfl

/-- C6: the caller fields of the drained log are the construction record's
absent caller followed by the stage names in source order — each stage
contributing its function's declared name, or "anonymous" when the name is
empty — and the log of the starting wrapper is only ever appended to,
never truncated or reordered. -/
theorem chain_caller_sequence (v : JsVal) (p : List (String × JsPrim)) (h : Heap)
    (t0 : Trackable) (steps : List Step) (t' : Trackable) (h' : Heap)
    (h0 : of v p h = .ok t0) (hc : runChain t0 steps h = .ok (t', h')) :
    (getAnalyticsEvents t').map (fun e => e.metadata.caller)
        = none :: steps.map (fun s => some (stepName s))
    ∧ ∃ appended, getAnalyticsEvents t' = getAnalyticsEvents t0 ++ appended := by
  obtain ⟨snap, _, ht0⟩ := of_ok h0
  obtain ⟨l, hev, hmap, _⟩ := runChain_ok hc
  subst ht0
  exact ⟨by simp [getAnalyticsEvents, hev, hmap], ⟨l, hev⟩⟩

/-- C6 witness: the two-step chain's drained callers are
`[none, "addTwo", "addRandom"]`, in source order. -/
theorem chain_caller_sequence_witness :
    (getAnalyticsEvents numFiveChained).map (fun e => e.metadata.caller)
        = none :: chainTwo.map (fun s => some (stepName s))
    ∧ ∃ appended, getAnalyticsEvents numFiveChained = getAnalyticsEvents numFive ++ appended :=
  chain_caller_sequence (.prim (.num 5)) [] [] numFive chainTwo numFiveChained [] rfl rfl

/-- C7: `run` (and `runAsync`, whose awaited completion is modelled as
state sequencing) hands the full ordered event log to the sink exactly
once — witnessed by a call-recording sink observing a single call — and
returns the wrapper's current value; draining leaves the wrapper's value
and log untouched, and the returned value equals `getValue` before the
drain. -/
theorem run_drains_once_and_returns_value (t : Trackable) :
    (∀ (σ : Type) (sink : List AnalyticsEvent → σ → σ) (s : σ),
        run t sink s = (sink (getAnalyticsEvents t) s, getValue t)
        ∧ runAsync t sink s = (sink (getAnalyticsEvents t) s, getValue t))
    ∧ run t (fun ev calls => calls ++ [ev]) ([] : List (List AnalyticsEvent))
        = ([getAnalyticsEvents t], getValue t) :=
  ⟨fun _ _ _ => ⟨rfl, rfl⟩, rfl⟩

/-- C8: the claim states that `of(value, payload?)` succeeds for EVERY
input value. Counterexample: `of` builds its construction record with
`structuredClone(value)`, which throws `DataCloneError` on a function
value, so `of` of a function value raises that error. -/
theorem of_throws_on_function_value :
    of (JsVal.func 0) [] [] = .error .dataCloneError := rfl

/-- C8 (amended): `of(value, payload?)` succeeds for every
structured-cloneable value and every optional payload, returning a wrapper
holding the value and a one-element event log; only a value that
`structuredClone` cannot copy makes it raise the deep-copy error. -/
theorem of_succeeds_on_cloneable (v : JsVal) (p : List (String × JsPrim))
    (h : Heap) (snap : Snap) (hs : structuredClone h v = some snap) :
    ∃ t0, of v p h = .ok t0 ∧ getValue t0 = v
      ∧ (getAnalyticsEvents t0).length = 1 := by
  refine ⟨{ value := v,
            analyticsEvents :=
              [{ metadata := { caller := none, input := none, currentValue := snap },
                 extra := p.filter (fun kv => kv.1 ≠ "metadata") }] }, ?_, rfl, rfl⟩
  unfold of
  rw [hs]

/-- C8 (amended) witness: `of(5)` succeeds with a one-record log. -/
theorem of_succeeds_on_cloneable_witness :
    ∃ t0, of (JsVal.prim (.num 5)) [] [] = .ok t0
      ∧ getValue t0 = JsVal.prim (.num 5)
      ∧ (getAnalyticsEvents t0).length = 1 :=
  of_succeeds_on_cloneable (.prim (.num 5)) [] [] (.prim (.num 5)) rfl

/-- C9: when the transformation function passed to `map` or `flatMap`
throws, the same exception propagates synchronously out of `map`/`flatMap`
(their result is that error, so no wrapper is returned and no partial
event record is appended to any log); composition never mutates the
predecessor wrapper, whose value and log are unchanged. The cloneability
hypothesis reflects that the `input` snapshot at the top of `map`/`flatMap`
is taken before the function is invoked. -/
theorem transform_throw_propagates (t : Trackable) (h : Heap) (e : JsError)
    (f : TransformFn) (g : FlatFn)
    (hcl : (structuredClone h (getValue t)).isSome = true)
    (hf : f.body (getValue t) h = .error e)
    (hg : g.body (getValue t) h = .error e) :
    map t f h = .error e ∧ flatMap t g h = .error e := by
  obtain ⟨s, hs⟩ := Option.isSome_iff_exists.mp hcl
  rw [getValue] at hs hf hg
  constructor
  · simp [map, hs, hf]
  · simp [flatMap, hs, hg]

/-- C9 witness: a throwing stage on `of(5)` makes both `map` and `flatMap`
rethrow the same error. -/
theorem transform_throw_propagates_witness :
    map numFive { name := "boom", body := fun _ _ => .error (.thrown 7) } []
      = .error (.thrown 7)
    ∧ flatMap numFive { name := "boomFlat", body := fun _ _ => .error (.thrown 7) } []
      = .error (.thrown 7) :=
  transform_throw_propagates numFive [] (.thrown 7)
    { name := "boom", body := fun _ _ => .error (.thrown 7) }
    { name := "boomFlat", body := fun _ _ => .error (.thrown 7) }
    rfl rfl rfl

/-- C10: the construction record's metadata never carries a caller or an
input (only the current-value snapshot), while every record appended by a
composition call carries both — so after N composition calls exactly N
records of the drained log carry a caller and an input, and the
construction record is the single one without them. -/
theorem construction_record_distinguished (v : JsVal) (p : List (String × JsPrim))
    (h : Heap) (t0 : Trackable) (steps : List Step) (t' : Trackable) (h' : Heap)
    (h0 : of v p h = .ok t0) (hc : runChain t0 steps h = .ok (t', h')) :
    (getAnalyticsEvents t').map
        (fun e => e.metadata.caller.isSome && e.metadata.input.isSome)
      = false :: steps.map (fun _ => true) := by
  obtain ⟨snap, _, ht0⟩ := of_ok h0
  obtain ⟨l, hev, hmap, hall⟩ := runChain_ok hc
  subst ht0
  have hlen : l.length = steps.length := by
    simpa using congrArg List.length hmap
  have hl : l.map (fun e => e.metadata.caller.isSome && e.metadata.input.isSome)
      = steps.map (fun _ => true) := by
    rw [map_eq_replicate_true _ l
          (fun e he => by simp [(hall e he).1, (hall e he).2]),
        map_eq_replicate_true (fun _ => true) steps (fun _ _ => rfl), hlen]
  simp [getAnalyticsEvents, hev, hl]

/-- C10 witness: the two-step chain's drained log flags exactly the
construction record as the one without caller and input. -/
theorem construction_record_distinguished_witness :
    (getAnalyticsEvents numFiveChained).map
        (fun e => e.metadata.caller.isSome && e.metadata.input.isSome)
      = false :: chainTwo.map (fun _ => true) :=
  construction_record_distinguished (.prim (.num 5)) [] [] numFive chainTwo
    numFiveChained [] rfl rfl

end TrackableSpec
